import Mathlib

/-!
# protobuf_comm stream server (src/libs/protobuf_comm/server.cpp)

Shallow embedding of `ProtobufStreamServer` and `ProtobufStreamServer::Session`.

* Every member function of the source becomes a pure function on the state of
  the object it belongs to.  A session handler returns the new session state
  together with the list of calls it made, in program order (`Effect`): the
  asynchronous operations it started on its socket and the calls into its
  parent server.
* The pending operations of the `io_service` are kept next to each session
  (`Conn`): a completion event takes the operation off that list and runs the
  handler that was bound to it.
* Session objects are shared (`shared_ptr`): the server keeps them in a store
  addressed by creation order, `sessions_` maps a ClientID to such an address,
  and a completion handler keeps addressing its session after the table entry
  is gone.
* Two calls of the handlers can leave by an exception that a peer provokes:
  `deserialize` of the message register (unregistered or malformed message)
  and `socket_.remote_endpoint()` (peer already gone).  No handler catches it,
  and neither does `run_asio`, so the exception ends the thread function and
  with it the program: the state is marked `terminated` and no further event
  happens.  The slots connected to the signals and `serialize` are taken to
  return.
-/

namespace protobuf_comm

/-! ## Data model -/

/-- ClientID of the source, an unsigned integer type; its width is the
parameter `w` of the server functions. -/
abbrev ClientID := Nat

/-- A `boost::system::error_code`; the value 0 is success, so `! error` of the
source is `error = 0`. -/
abbrev error_code := Nat

/-- The code `errc::not_enough_memory` (ENOMEM). -/
def not_enough_memory : error_code := 12

/-- The fixed header of a frame.  Each field holds the number denoted by its
bytes on the wire (network byte order). -/
structure frame_header_t where
  component_id : Nat
  msg_type : Nat
  payload_size : Nat
deriving DecidableEq, Repr

/-- Conversion of a 32-bit field from network order: the value of the field. -/
def ntohl (x : Nat) : Nat := x % 2 ^ 32

/-- Conversion of a 16-bit field from network order: the value of the field. -/
def ntohs (x : Nat) : Nat := x % 2 ^ 16

/-- The bytes of `sizeof(frame_header_t)` as they go over the wire. -/
def frame_header_t.bytes (h : frame_header_t) : List Nat :=
  [h.component_id / 256 % 256, h.component_id % 256,
   h.msg_type / 256 % 256, h.msg_type % 256,
   h.payload_size / 2 ^ 24 % 256, h.payload_size / 2 ^ 16 % 256,
   h.payload_size / 2 ^ 8 % 256, h.payload_size % 256]

/-- An entry of the outbound queue: header, serialized message and the two
scatter buffers that are handed to `async_write`. -/
structure QueueEntry where
  frame_header : frame_header_t
  serialized_message : List Nat
  buffers : List (List Nat)
deriving DecidableEq, Repr

/-- The message register behind `parent_->message_register()`.  Its code is
not part of server.cpp, so it is a parameter of the functions that call it:
`serialize` fills the frame header and the serialized message of an entry,
`deserialize` builds a message from the last header and the read buffer, or
throws (`none`) when the pair of ids is not registered or the payload is
malformed. -/
structure MessageRegister (M : Type) where
  serialize : Nat → Nat → M → frame_header_t × List Nat
  deserialize : frame_header_t → List Nat → Option M

/-- What a session handler does besides changing its own fields, in program
order. -/
inductive Effect (M : Type) where
  /-- Call of `async_read` for `sizeof(frame_header_t)` bytes into
  `in_frame_header_`. -/
  | async_read_header : Effect M
  /-- Call of `async_read` for `to_read` bytes into `in_data_`, whose
  allocated size is `capacity`. -/
  | async_read_message (capacity to_read : Nat) : Effect M
  /-- Call of `async_write` with the buffers of `entry`. -/
  | async_write (entry : QueueEntry) : Effect M
  /-- Call of `parent_->disconnected(shared_from_this(), error)`. -/
  | disconnected (error : error_code) : Effect M
  /-- Call of `parent_->sig_rcvd_(id_, comp_id, msg_type, m)`. -/
  | sig_rcvd (id : ClientID) (comp_id msg_type : Nat) (m : M) : Effect M
  /-- An exception thrown by a call of the handler leaves the handler; what
  follows the call in the handler is not run. -/
  | exception : Effect M
deriving DecidableEq, Repr

/-- The fields of `ProtobufStreamServer::Session`. -/
structure Session where
  id_ : ClientID
  remote_endpoint_ : Nat
  in_frame_header_ : frame_header_t
  in_data_size_ : Nat
  in_data_ : List Nat
  outbound_active_ : Bool
  outbound_queue_ : List QueueEntry
deriving DecidableEq, Repr

/-! ## Session -/

/-- Constructor `Session::Session(id, parent, io_service)`. -/
def Session.init (id : ClientID) : Session :=
  { id_ := id
    remote_endpoint_ := 0
    in_frame_header_ := ⟨0, 0, 0⟩
    in_data_size_ := 1024
    in_data_ := []
    outbound_active_ := false
    outbound_queue_ := [] }

/-- `Session::start_session`: stores the remote endpoint of the socket.
`endpoint` is what `socket_.remote_endpoint()` gives: the endpoint, or `none`
when it throws because the peer is gone; the exception then leaves
`start_session` (`none`). -/
def Session.start_session (s : Session) (endpoint : Option Nat) : Option Session :=
  match endpoint with
  | none => none
  | some ep => some { s with remote_endpoint_ := ep }

/-- `Session::start_read`. -/
def Session.start_read {M : Type} (s : Session) : Session × List (Effect M) :=
  (s, [Effect.async_read_header])

/-- The entry that `Session::send` allocates and fills: the register
serializes the message into its header and string, and the two buffers point
at them. -/
def QueueEntry.serialized {M : Type} (reg : MessageRegister M)
    (component_id msg_type : Nat) (m : M) : QueueEntry :=
  let ser := reg.serialize component_id msg_type m
  { frame_header := ser.1
    serialized_message := ser.2
    buffers := [ser.1.bytes, ser.2] }

/-- `Session::send`. -/
def Session.send {M : Type} (reg : MessageRegister M) (s : Session)
    (component_id msg_type : Nat) (m : M) : Session × List (Effect M) :=
  let entry := QueueEntry.serialized reg component_id msg_type m
  if s.outbound_active_ then
    ({ s with outbound_queue_ := s.outbound_queue_ ++ [entry] }, [])
  else
    ({ s with outbound_active_ := true }, [Effect.async_write entry])

/-- `Session::handle_write`; `entry` is the entry of the completed write, which
the handler deletes. -/
def Session.handle_write {M : Type} (s : Session) (error : error_code)
    (_entry : QueueEntry) : Session × List (Effect M) :=
  if error = 0 then
    match s.outbound_queue_ with
    | entry :: rest =>
      ({ s with outbound_queue_ := rest }, [Effect.async_write entry])
    | [] => ({ s with outbound_active_ := false }, [])
  else
    (s, [Effect.disconnected error])

/-- `Session::handle_read_header`; `realloc_ok` tells whether `realloc`
returns a block when the handler calls it. -/
def Session.handle_read_header {M : Type} (s : Session) (error : error_code)
    (realloc_ok : Bool) : Session × List (Effect M) :=
  if error = 0 then
    let to_read := ntohl s.in_frame_header_.payload_size
    let grown : Session × List (Effect M) :=
      if to_read > s.in_data_size_ then
        if realloc_ok then
          ({ s with in_data_size_ := to_read }, [])
        else
          (s, [Effect.disconnected not_enough_memory])
      else
        (s, [])
    (grown.1, grown.2 ++ [Effect.async_read_message grown.1.in_data_size_ to_read])
  else
    (s, [Effect.disconnected error])

/-- `Session::handle_read_message`. -/
def Session.handle_read_message {M : Type} (reg : MessageRegister M) (s : Session)
    (error : error_code) : Session × List (Effect M) :=
  if error = 0 then
    match reg.deserialize s.in_frame_header_ s.in_data_ with
    | none => (s, [Effect.exception])
    | some m =>
      let comp_id := ntohs s.in_frame_header_.component_id
      let msg_type := ntohs s.in_frame_header_.msg_type
      let r : Session × List (Effect M) := s.start_read
      (r.1, Effect.sig_rcvd s.id_ comp_id msg_type m :: r.2)
  else
    (s, [Effect.disconnected error])

/-! ## A session and the operations outstanding on its socket -/

/-- An asynchronous read that was started and has not completed yet. -/
inductive ReadOp where
  | header : ReadOp
  | message (capacity to_read : Nat) : ReadOp
deriving DecidableEq, Repr

/-- A session object with the operations of the `io_service` that are
outstanding on its socket (`reads`, `writes`, oldest first).  `initiated` is a
record of every write ever started on the socket, in the order of the
`async_write` calls; no handler reads it.  `terminated` tells that an exception
left a handler of this session and ended the program. -/
structure Conn where
  session : Session
  reads : List ReadOp
  writes : List QueueEntry
  initiated : List QueueEntry
  terminated : Bool
deriving DecidableEq, Repr

/-- A session object right after its construction: nothing is outstanding. -/
def Conn.init (s : Session) : Conn :=
  { session := s, reads := [], writes := [], initiated := [], terminated := false }

/-- Registers one call of a handler with the `io_service`: asynchronous
operations become outstanding, calls into the parent are not stored here. -/
def Conn.start {M : Type} (c : Conn) : Effect M → Conn
  | Effect.async_read_header => { c with reads := c.reads ++ [ReadOp.header] }
  | Effect.async_read_message capacity to_read =>
    { c with reads := c.reads ++ [ReadOp.message capacity to_read] }
  | Effect.async_write entry =>
    { c with writes := c.writes ++ [entry], initiated := c.initiated ++ [entry] }
  | Effect.disconnected _ => c
  | Effect.sig_rcvd _ _ _ _ => c
  | Effect.exception => { c with terminated := true }

/-- Stores the result of a handler: the new session fields, and the operations
it started, in program order.  The calls it made are passed on. -/
def Conn.run_handler {M : Type} (c : Conn) (r : Session × List (Effect M)) :
    Conn × List (Effect M) :=
  (r.2.foldl Conn.start { c with session := r.1 }, r.2)

/-- A call of `Session::send` on the session object. -/
def Conn.send {M : Type} (reg : MessageRegister M) (c : Conn)
    (component_id msg_type : Nat) (m : M) : Conn × List (Effect M) :=
  c.run_handler (c.session.send reg component_id msg_type m)

/-- Completion of an asynchronous operation, as the `io_service` reports it.
A header read carries the header that was read into `in_frame_header_` and the
outcome of the `realloc` the handler may call; a message read carries the
bytes that were read into `in_data_`. -/
inductive Completion where
  | write (error : error_code) : Completion
  | read_header (error : error_code) (header : frame_header_t) (realloc_ok : Bool) :
    Completion
  | read_message (error : error_code) (data : List Nat) : Completion
deriving DecidableEq, Repr

/-- The `io_service` completes the oldest outstanding operation of the given
kind and runs the handler bound to it.  A completion for which no operation is
outstanding does not happen: the state stays as it is. -/
def Conn.complete {M : Type} (reg : MessageRegister M) (c : Conn) :
    Completion → Conn × List (Effect M)
  | Completion.write error =>
    match c.writes with
    | [] => (c, [])
    | entry :: rest =>
      Conn.run_handler { c with writes := rest } (c.session.handle_write error entry)
  | Completion.read_header error header realloc_ok =>
    match c.reads with
    | ReadOp.header :: rest =>
      Conn.run_handler { c with reads := rest }
        (Session.handle_read_header { c.session with in_frame_header_ := header }
          error realloc_ok)
    | _ => (c, [])
  | Completion.read_message error data =>
    match c.reads with
    | ReadOp.message _ _ :: rest =>
      Conn.run_handler { c with reads := rest }
        (Session.handle_read_message reg { c.session with in_data_ := data } error)
    | _ => (c, [])

/-- What can happen to one session: the application sends, or an operation on
the socket completes. -/
inductive SessionEvent (M : Type) where
  | send (component_id msg_type : Nat) (m : M) : SessionEvent M
  | complete (k : Completion) : SessionEvent M
deriving DecidableEq, Repr

/-- One event on a session. -/
def Conn.step {M : Type} (reg : MessageRegister M) (c : Conn) :
    SessionEvent M → Conn × List (Effect M)
  | SessionEvent.send component_id msg_type m => c.send reg component_id msg_type m
  | SessionEvent.complete k => c.complete reg k

/-- A sequence of events on a session, oldest first.  Once the program is
terminated nothing happens any more. -/
def Conn.run {M : Type} (reg : MessageRegister M) : Conn → List (SessionEvent M) → Conn
  | c, [] => c
  | c, e :: evs => if c.terminated then c else Conn.run reg (c.step reg e).1 evs

/-- The entries that the `send` calls of an event sequence build, in call
order. -/
def sent_entries {M : Type} (reg : MessageRegister M) :
    List (SessionEvent M) → List QueueEntry
  | [] => []
  | SessionEvent.send component_id msg_type m :: evs =>
    QueueEntry.serialized reg component_id msg_type m :: sent_entries reg evs
  | SessionEvent.complete _ :: evs => sent_entries reg evs

/-- The bytes a list of started writes puts on the socket: for each entry its
buffers, one after the other. -/
def wire_bytes (es : List QueueEntry) : List Nat :=
  (es.map (fun e => e.buffers.flatten)).flatten

/-! ## Server -/

/-- An emission of one of the signals of the server. -/
inductive Signal (M : Type) where
  | sig_connected (id : ClientID) (endpoint : Nat) : Signal M
  | sig_disconnected (id : ClientID) (error : error_code) : Signal M
  | sig_rcvd (id : ClientID) (comp_id msg_type : Nat) (m : M) : Signal M
deriving DecidableEq, Repr

/-- The map `sessions_` from ClientID to session pointer: `find`. -/
def map_find (m : List (ClientID × Nat)) (k : ClientID) : Option Nat :=
  m.lookup k

/-- The map `sessions_`: `erase(key)`. -/
def map_erase (m : List (ClientID × Nat)) (k : ClientID) : List (ClientID × Nat) :=
  m.filter (fun p => p.1 != k)

/-- The map `sessions_`: the assignment `sessions_[key] = value`. -/
def map_assign (m : List (ClientID × Nat)) (k : ClientID) (v : Nat) :
    List (ClientID × Nat) :=
  (k, v) :: map_erase m k

/-- The keys of the map `sessions_`. -/
def map_keys (m : List (ClientID × Nat)) : List ClientID :=
  m.map Prod.fst

/-- The state of a `ProtobufStreamServer`.  `next_cid_` and `sessions_` are its
fields; `sessions_` holds for each key the address of the session object in
`objects`.  `accepts` are the outstanding `async_accept` operations, each with
the session object bound to its handler; `objects` are the session objects
that were accepted, by address; `signals` is the sequence of signal emissions
so far; `terminated` tells that an exception left a handler on the thread of
`run_asio` and ended the program. -/
structure ProtobufStreamServer (M : Type) where
  next_cid_ : ClientID
  sessions_ : List (ClientID × Nat)
  accepts : List Session
  objects : List Conn
  signals : List (Signal M)
  terminated : Bool
deriving DecidableEq, Repr

variable {M : Type}

/-- `ProtobufStreamServer::start_accept`: the new session takes the value of
`next_cid_`, which is then incremented in its `w`-bit unsigned type. -/
def ProtobufStreamServer.start_accept (w : Nat) (srv : ProtobufStreamServer M) :
    ProtobufStreamServer M :=
  let new_session := Session.init srv.next_cid_
  { srv with
    next_cid_ := (srv.next_cid_ + 1) % 2 ^ w
    accepts := srv.accepts ++ [new_session] }

/-- Constructor `ProtobufStreamServer::ProtobufStreamServer(port)`. -/
def ProtobufStreamServer.init (w : Nat) : ProtobufStreamServer M :=
  ProtobufStreamServer.start_accept w
    { next_cid_ := 1 % 2 ^ w, sessions_ := [], accepts := [], objects := [], signals := [],
      terminated := false }

/-- `ProtobufStreamServer::disconnected`. -/
def ProtobufStreamServer.disconnected (srv : ProtobufStreamServer M) (session : Session)
    (error : error_code) : ProtobufStreamServer M :=
  { srv with
    sessions_ := map_erase srv.sessions_ session.id_
    signals := srv.signals ++ [Signal.sig_disconnected session.id_ error] }

/-- `ProtobufStreamServer::handle_accept`; `endpoint` is what
`socket_.remote_endpoint()` gives for the accepted socket.  The accepted object
gets the next free address.  When `start_session` throws, the exception leaves
the handler before the session is registered, before `sig_connected_` and
before `start_accept`. -/
def ProtobufStreamServer.handle_accept (w : Nat) (srv : ProtobufStreamServer M)
    (new_session : Session) (error : error_code) (endpoint : Option Nat) :
    ProtobufStreamServer M :=
  if error = 0 then
    match new_session.start_session endpoint with
    | none => { srv with terminated := true }
    | some s =>
      let r : Session × List (Effect M) := s.start_read
      ProtobufStreamServer.start_accept w
        { srv with
          sessions_ := map_assign srv.sessions_ s.id_ srv.objects.length
          signals := srv.signals ++ [Signal.sig_connected s.id_ s.remote_endpoint_]
          objects := srv.objects ++ [((Conn.init s).run_handler r).1] }
  else
    ProtobufStreamServer.start_accept w srv

/-- The calls a session handler made into its parent, run in program order;
`session` is the session that `shared_from_this()` points to.  An exception
that leaves the handler ends the program. -/
def ProtobufStreamServer.parent_calls (srv : ProtobufStreamServer M) (session : Session) :
    List (Effect M) → ProtobufStreamServer M
  | [] => srv
  | Effect.disconnected error :: rest =>
    ProtobufStreamServer.parent_calls (srv.disconnected session error) session rest
  | Effect.sig_rcvd id comp_id msg_type m :: rest =>
    ProtobufStreamServer.parent_calls
      { srv with signals := srv.signals ++ [Signal.sig_rcvd id comp_id msg_type m] }
      session rest
  | Effect.async_read_header :: rest =>
    ProtobufStreamServer.parent_calls srv session rest
  | Effect.async_read_message _ _ :: rest =>
    ProtobufStreamServer.parent_calls srv session rest
  | Effect.async_write _ :: rest =>
    ProtobufStreamServer.parent_calls srv session rest
  | Effect.exception :: _ => { srv with terminated := true }

/-- Runs `f` on the session object at address `a` and then the calls it made
into the server. -/
def ProtobufStreamServer.on_session (srv : ProtobufStreamServer M) (a : Nat)
    (f : Conn → Conn × List (Effect M)) : ProtobufStreamServer M :=
  match srv.objects[a]? with
  | none => srv
  | some c =>
    let r := f c
    ProtobufStreamServer.parent_calls { srv with objects := srv.objects.set a r.1 }
      r.1.session r.2

/-- The text of the exception that `ProtobufStreamServer::send` throws. -/
def client_not_found : String := "Client does not exist"

/-- `ProtobufStreamServer::send`: the outcome (the exception, if one is thrown)
and the state afterwards. -/
def ProtobufStreamServer.send (reg : MessageRegister M) (srv : ProtobufStreamServer M)
    (client : ClientID) (component_id msg_type : Nat) (m : M) :
    Except String Unit × ProtobufStreamServer M :=
  match map_find srv.sessions_ client with
  | none => (Except.error client_not_found, srv)
  | some a =>
    (Except.ok (), srv.on_session a (fun c => c.send reg component_id msg_type m))

/-- What can happen to a server: the outstanding accept completes (`endpoint`
is what `remote_endpoint()` gives for the socket, `none` when it throws), an
operation on the socket of the session object at address `a` completes, or the
application calls `send`. -/
inductive Event (M : Type) where
  | accept_complete (error : error_code) (endpoint : Option Nat) : Event M
  | complete (a : Nat) (k : Completion) : Event M
  | send (client : ClientID) (component_id msg_type : Nat) (m : M) : Event M
deriving DecidableEq, Repr

/-- One event on the server. -/
def ProtobufStreamServer.step (w : Nat) (reg : MessageRegister M)
    (srv : ProtobufStreamServer M) : Event M → ProtobufStreamServer M
  | Event.accept_complete error endpoint =>
    match srv.accepts with
    | [] => srv
    | new_session :: rest =>
      ProtobufStreamServer.handle_accept w { srv with accepts := rest } new_session
        error endpoint
  | Event.complete a k => srv.on_session a (fun c => c.complete reg k)
  | Event.send client component_id msg_type m =>
    (srv.send reg client component_id msg_type m).2

/-- A sequence of events on a server, oldest first.  Once the program is
terminated nothing happens any more. -/
def ProtobufStreamServer.run (w : Nat) (reg : MessageRegister M) :
    ProtobufStreamServer M → List (Event M) → ProtobufStreamServer M
  | srv, [] => srv
  | srv, e :: evs =>
    if srv.terminated then srv
    else ProtobufStreamServer.run w reg (ProtobufStreamServer.step w reg srv e) evs

/-- The ClientIDs that `handle_accept` registered and announced, in the order
of the `sig_connected_` emissions. -/
def connected_ids : List (Signal M) → List ClientID
  | [] => []
  | Signal.sig_connected id _ :: rest => id :: connected_ids rest
  | _ :: rest => connected_ids rest

/-- The errors of the `sig_disconnected_` emissions for ClientID `id`, in
order. -/
def disconnect_notifications (id : ClientID) : List (Signal M) → List error_code
  | [] => []
  | Signal.sig_disconnected i error :: rest =>
    if i = id then error :: disconnect_notifications id rest
    else disconnect_notifications id rest
  | _ :: rest => disconnect_notifications id rest

/-- The number of accept completions in an event sequence. -/
def accept_count : List (Event M) → Nat
  | [] => 0
  | Event.accept_complete _ _ :: evs => accept_count evs + 1
  | _ :: evs => accept_count evs

/-- A register for byte-string messages: the payload is the message, the
header carries the two ids and the length. -/
def bytes_register : MessageRegister (List Nat) :=
  { serialize := fun component_id msg_type m => (⟨component_id, msg_type, m.length⟩, m)
    deserialize := fun h data => some (data.take (ntohl h.payload_size)) }

/-- The invariant of the write side: at most one write is outstanding, and
only while `outbound_active_` is set. -/
def Conn.write_inv (c : Conn) : Prop :=
  c.writes.length ≤ 1 ∧ (c.writes ≠ [] → c.session.outbound_active_ = true)

/-- The invariant of the queue: entries wait only while a write is active. -/
def Conn.queue_inv (c : Conn) : Prop :=
  c.session.outbound_active_ = false → c.session.outbound_queue_ = []

/-- The error code that a completion reports. -/
def Completion.error : Completion → error_code
  | Completion.write error => error
  | Completion.read_header error _ _ => error
  | Completion.read_message error _ => error

/-- Whether the operation that a completion belongs to is outstanding on the
socket, so that the completion can happen. -/
def Conn.outstanding (c : Conn) : Completion → Bool
  | Completion.write _ => !c.writes.isEmpty
  | Completion.read_header _ _ _ =>
    match c.reads with
    | ReadOp.header :: _ => true
    | _ => false
  | Completion.read_message _ _ =>
    match c.reads with
    | ReadOp.message _ _ :: _ => true
    | _ => false

/-- The state of the accept loop after `k` accept completions: one accept is
outstanding, bound to a fresh session whose id is `1 + k` in the `w`-bit type,
and the counter is one ahead. -/
def ProtobufStreamServer.accept_inv (w : Nat) (srv : ProtobufStreamServer M) (k : Nat) :
    Prop :=
  srv.accepts = [Session.init ((1 + k) % 2 ^ w)] ∧ srv.next_cid_ = (2 + k) % 2 ^ w

/-- The state of the ids after `k` accept completions: the ids announced so
far are strictly increasing and at most `k`, and the accept loop is in its
state for `k` unless the program is terminated. -/
def ProtobufStreamServer.ids_inv (w : Nat) (srv : ProtobufStreamServer M) (k : Nat) :
    Prop :=
  (connected_ids srv.signals).Pairwise (· < ·)
    ∧ (∀ i ∈ connected_ids srv.signals, i ≤ k)
    ∧ (srv.terminated = true ∨ srv.accept_inv w k)

/-- The session object of the client of `one_client_server`. -/
def first_client : Conn :=
  { session := { Session.init 1 with remote_endpoint_ := 7 }
    reads := [ReadOp.header]
    writes := []
    initiated := []
    terminated := false }

/-- A server of 32-bit ClientIDs after one client connected from endpoint 7. -/
def one_client_server : ProtobufStreamServer (List Nat) :=
  ProtobufStreamServer.run 32 bytes_register (ProtobufStreamServer.init 32)
    [Event.accept_complete 0 (some 7)]

end protobuf_comm

/-! ## Properties of a single session -/

namespace protobuf_comm

variable {M : Type}

theorem Conn.step_write_inv (reg : MessageRegister M) (c : Conn) (e : SessionEvent M)
    (h : c.write_inv) : (c.step reg e).1.write_inv := by
  obtain ⟨h1, h2⟩ := h
  cases e with
  | send component_id msg_type m =>
    simp only [Conn.step, Conn.send, Conn.run_handler, Session.send]
    by_cases ha : c.session.outbound_active_ = true
    · simp [ha, Conn.write_inv, h1]
    · have hw : c.writes = [] := by
        by_contra hne
        exact ha (h2 hne)
      simp [ha, Conn.write_inv, Conn.start, hw]
  | complete k =>
    cases k with
    | write error =>
      simp only [Conn.step, Conn.complete]
      cases hw : c.writes with
      | nil => simp [Conn.write_inv, hw]
      | cons entry rest =>
        have hr : rest = [] := by
          rw [hw] at h1
          simp at h1
          exact h1
        have ha : c.session.outbound_active_ = true := h2 (by simp [hw])
        subst hr
        simp only [Conn.run_handler, Session.handle_write]
        by_cases he : error = 0
        · cases hq : c.session.outbound_queue_ with
          | nil => simp [he, hq, Conn.write_inv]
          | cons q qs => simp [he, hq, Conn.write_inv, Conn.start, ha]
        · simp [he, Conn.write_inv, Conn.start]
    | read_header error header realloc_ok =>
      simp only [Conn.step, Conn.complete]
      split
      · simp only [Conn.run_handler, Session.handle_read_header]
        by_cases he : error = 0
        · by_cases hg : ntohl header.payload_size > c.session.in_data_size_
          · cases realloc_ok <;>
              simp [he, hg, Conn.write_inv, Conn.start, h1] <;> exact h2
          · simp [he, hg, Conn.write_inv, Conn.start, h1]
            exact h2
        · simp [he, Conn.write_inv, Conn.start, h1]
          exact h2
      · exact ⟨h1, h2⟩
    | read_message error data =>
      simp only [Conn.step, Conn.complete]
      split
      · simp only [Conn.run_handler, Session.handle_read_message, Session.start_read]
        by_cases he : error = 0
        · simp only [he, ↓reduceIte]
          split
          · simp [Conn.write_inv, Conn.start, h1]
            exact h2
          · simp [Conn.write_inv, Conn.start, h1]
            exact h2
        · simp [he, Conn.write_inv, Conn.start, h1]
          exact h2
      · exact ⟨h1, h2⟩

theorem Conn.run_write_inv (reg : MessageRegister M) (evs : List (SessionEvent M)) :
    ∀ c : Conn, c.write_inv → (Conn.run reg c evs).write_inv := by
  induction evs with
  | nil => intro c h; exact h
  | cons e evs ih =>
    intro c h
    simp only [Conn.run]
    split
    · exact h
    · exact ih _ (Conn.step_write_inv reg c e h)

theorem Conn.step_order (reg : MessageRegister M) (c : Conn) (e : SessionEvent M)
    (h : c.queue_inv) :
    (c.step reg e).1.initiated ++ (c.step reg e).1.session.outbound_queue_
        = c.initiated ++ c.session.outbound_queue_ ++ sent_entries reg [e]
      ∧ (c.step reg e).1.queue_inv := by
  cases e with
  | send component_id msg_type m =>
    simp only [Conn.step, Conn.send, Conn.run_handler, Session.send, sent_entries]
    by_cases ha : c.session.outbound_active_ = true
    · simp [ha, Conn.queue_inv]
    · have hq : c.session.outbound_queue_ = [] := h (by simpa using ha)
      simp [ha, Conn.queue_inv, Conn.start, hq]
  | complete k =>
    cases k with
    | write error =>
      simp only [Conn.step, Conn.complete, sent_entries]
      cases hw : c.writes with
      | nil => simpa using h
      | cons entry rest =>
        simp only [Conn.run_handler, Session.handle_write]
        by_cases he : error = 0
        · cases hq : c.session.outbound_queue_ with
          | nil => simp [he, hq, Conn.queue_inv]
          | cons q qs =>
            have ha : c.session.outbound_active_ = true := by
              by_contra hna
              have := h (by simpa using hna)
              simp [hq] at this
            simp [he, hq, Conn.queue_inv, Conn.start, ha]
        · simp [he, Conn.queue_inv, Conn.start]
          exact h
    | read_header error header realloc_ok =>
      simp only [Conn.step, Conn.complete, sent_entries]
      split
      · simp only [Conn.run_handler, Session.handle_read_header]
        by_cases he : error = 0
        · by_cases hg : ntohl header.payload_size > c.session.in_data_size_
          · cases realloc_ok <;>
              simp [he, hg, Conn.queue_inv, Conn.start] <;> exact h
          · simp [he, hg, Conn.queue_inv, Conn.start]
            exact h
        · simp [he, Conn.queue_inv, Conn.start]
          exact h
      · simpa using h
    | read_message error data =>
      simp only [Conn.step, Conn.complete, sent_entries]
      split
      · simp only [Conn.run_handler, Session.handle_read_message, Session.start_read]
        by_cases he : error = 0
        · simp only [he, ↓reduceIte]
          split
          · simp [Conn.queue_inv, Conn.start]
            exact h
          · simp [Conn.queue_inv, Conn.start]
            exact h
        · simp [he, Conn.queue_inv, Conn.start]
          exact h
      · simpa using h

theorem sent_entries_cons (reg : MessageRegister M) (e : SessionEvent M)
    (evs : List (SessionEvent M)) :
    sent_entries reg (e :: evs) = sent_entries reg [e] ++ sent_entries reg evs := by
  cases e <;> simp [sent_entries]

/-- A session on whose socket no read is outstanding stays so, and the program
keeps running: only a read handler can throw. -/
theorem Conn.step_quiet (reg : MessageRegister M) (c : Conn) (e : SessionEvent M)
    (hr : c.reads = []) (ht : c.terminated = false) :
    (c.step reg e).1.reads = [] ∧ (c.step reg e).1.terminated = false := by
  cases e with
  | send component_id msg_type m =>
    simp only [Conn.step, Conn.send, Conn.run_handler, Session.send]
    by_cases ha : c.session.outbound_active_ = true <;> simp [ha, Conn.start, hr, ht]
  | complete k =>
    cases k with
    | write error =>
      simp only [Conn.step, Conn.complete]
      cases hw : c.writes with
      | nil => simp [hr, ht]
      | cons entry rest =>
        simp only [Conn.run_handler, Session.handle_write]
        by_cases he : error = 0
        · cases hq : c.session.outbound_queue_ <;> simp [he, hq, Conn.start, hr, ht]
        · simp [he, Conn.start, hr, ht]
    | read_header error header realloc_ok => simp [Conn.step, Conn.complete, hr, ht]
    | read_message error data => simp [Conn.step, Conn.complete, hr, ht]

theorem Conn.run_order (reg : MessageRegister M) (evs : List (SessionEvent M)) :
    ∀ c : Conn, c.queue_inv → c.reads = [] → c.terminated = false →
      (Conn.run reg c evs).initiated ++ (Conn.run reg c evs).session.outbound_queue_
        = c.initiated ++ c.session.outbound_queue_ ++ sent_entries reg evs := by
  induction evs with
  | nil => intro c _ _ _; simp [Conn.run, sent_entries]
  | cons e evs ih =>
    intro c h hr ht
    have hs := Conn.step_order reg c e h
    have hq := Conn.step_quiet reg c e hr ht
    have := ih _ hs.2 hq.1 hq.2
    rw [hs.1] at this
    simp only [Conn.run, ht]
    rw [sent_entries_cons, ← List.append_assoc]
    exact this

theorem Conn.step_capacity (reg : MessageRegister M) (c : Conn) (e : SessionEvent M) :
    c.session.in_data_size_ ≤ (c.step reg e).1.session.in_data_size_ := by
  cases e with
  | send component_id msg_type m =>
    simp only [Conn.step, Conn.send, Conn.run_handler, Session.send]
    by_cases ha : c.session.outbound_active_ = true <;> simp [ha, Conn.start]
  | complete k =>
    cases k with
    | write error =>
      simp only [Conn.step, Conn.complete]
      cases hw : c.writes with
      | nil => simp
      | cons entry rest =>
        simp only [Conn.run_handler, Session.handle_write]
        by_cases he : error = 0
        · cases hq : c.session.outbound_queue_ <;> simp [he, hq, Conn.start]
        · simp [he, Conn.start]
    | read_header error header realloc_ok =>
      simp only [Conn.step, Conn.complete]
      split
      · simp only [Conn.run_handler, Session.handle_read_header]
        by_cases he : error = 0
        · by_cases hg : ntohl header.payload_size > c.session.in_data_size_
          · cases realloc_ok <;> simp [he, hg, Conn.start]
            exact Nat.le_of_lt hg
          · simp [he, hg, Conn.start]
        · simp [he, Conn.start]
      · simp
    | read_message error data =>
      simp only [Conn.step, Conn.complete]
      split
      · simp only [Conn.run_handler, Session.handle_read_message, Session.start_read]
        by_cases he : error = 0
        · simp only [he, ↓reduceIte]
          split <;> simp [Conn.start]
        · simp [he, Conn.start]
      · simp

theorem Conn.run_capacity (reg : MessageRegister M) (evs : List (SessionEvent M)) :
    ∀ c : Conn, c.session.in_data_size_ ≤ (Conn.run reg c evs).session.in_data_size_ := by
  induction evs with
  | nil => intro c; simp [Conn.run]
  | cons e evs ih =>
    intro c
    simp only [Conn.run]
    split
    · exact Nat.le_refl _
    · exact Nat.le_trans (Conn.step_capacity reg c e) (ih _)

/-! ## Outbound queue -/

/-- C4: for one session and every sequence of `send` calls and completions,
the entries whose write was started, in the order of the `async_write` calls,
followed by the entries waiting in `outbound_queue_`, are the entries of the
`send` calls in call order.  In the scenario of two sends back to back and one
successful write completion, both frames are written whole, the first before
the second. -/
theorem outbound_frames_keep_send_order (reg : MessageRegister M) (id : ClientID)
    (evs : List (SessionEvent M)) :
    ((Conn.run reg (Conn.init (Session.init id)) evs).initiated
        ++ (Conn.run reg (Conn.init (Session.init id)) evs).session.outbound_queue_
      = sent_entries reg evs)
    ∧ ((Conn.run bytes_register (Conn.init (Session.init 1))
          [SessionEvent.send 5 10 [102, 105, 114, 115, 116],
           SessionEvent.send 5 10 [115, 101, 99, 111, 110, 100]]).writes
        = [QueueEntry.serialized bytes_register 5 10 [102, 105, 114, 115, 116]])
    ∧ (wire_bytes (Conn.run bytes_register (Conn.init (Session.init 1))
          [SessionEvent.send 5 10 [102, 105, 114, 115, 116],
           SessionEvent.send 5 10 [115, 101, 99, 111, 110, 100],
           SessionEvent.complete (Completion.write 0)]).initiated
        = [0, 5, 0, 10, 0, 0, 0, 5, 102, 105, 114, 115, 116,
           0, 5, 0, 10, 0, 0, 0, 6, 115, 101, 99, 111, 110, 100]) := by
  refine ⟨?_, by decide, by decide⟩
  have h := Conn.run_order reg evs (Conn.init (Session.init id))
    (by intro _; rfl) rfl rfl
  simpa [Conn.init, Session.init] using h

/-- C5: from a state with no write outstanding, after every sequence of `send`
calls and completions (with or without error) at most one write is outstanding
on the socket, and one is outstanding only while `outbound_active_` is set. -/
theorem at_most_one_write_outstanding (reg : MessageRegister M) (c0 : Conn)
    (h0 : c0.writes = []) (evs : List (SessionEvent M)) :
    (Conn.run reg c0 evs).writes.length ≤ 1
      ∧ ((Conn.run reg c0 evs).writes ≠ [] →
          (Conn.run reg c0 evs).session.outbound_active_ = true) :=
  Conn.run_write_inv reg evs c0 ⟨by simp [h0], fun hne => absurd h0 hne⟩

/-- The write invariant on a fresh session after two sends, a successful write
completion and a third send. -/
theorem at_most_one_write_outstanding_witness :
    (Conn.init (Session.init 1)).writes = []
      ∧ (Conn.run bytes_register (Conn.init (Session.init 1))
          [SessionEvent.send 5 10 [1], SessionEvent.send 5 10 [2],
           SessionEvent.complete (Completion.write 0),
           SessionEvent.send 5 10 [3]]).writes.length ≤ 1
      ∧ ((Conn.run bytes_register (Conn.init (Session.init 1))
          [SessionEvent.send 5 10 [1], SessionEvent.send 5 10 [2],
           SessionEvent.complete (Completion.write 0),
           SessionEvent.send 5 10 [3]]).writes ≠ [] →
        (Conn.run bytes_register (Conn.init (Session.init 1))
          [SessionEvent.send 5 10 [1], SessionEvent.send 5 10 [2],
           SessionEvent.complete (Completion.write 0),
           SessionEvent.send 5 10 [3]]).session.outbound_active_ = true) :=
  ⟨rfl, at_most_one_write_outstanding bytes_register (Conn.init (Session.init 1)) rfl _⟩

/-- C9, the claim as stated fails: two sends, then the write of the first
completes with error 104 while the second entry waits in the queue; after the
handler the queue still holds that entry. -/
theorem write_error_keeps_queue_counterexample :
    (Conn.run bytes_register (Conn.init (Session.init 1))
        [SessionEvent.send 5 10 [1], SessionEvent.send 5 10 [2]]).session.outbound_queue_
      = [QueueEntry.serialized bytes_register 5 10 [2]]
    ∧ (Conn.run bytes_register (Conn.init (Session.init 1))
        [SessionEvent.send 5 10 [1], SessionEvent.send 5 10 [2],
         SessionEvent.complete (Completion.write 104)]).session.outbound_queue_
      = [QueueEntry.serialized bytes_register 5 10 [2]]
    ∧ (Conn.run bytes_register (Conn.init (Session.init 1))
        [SessionEvent.send 5 10 [1], SessionEvent.send 5 10 [2],
         SessionEvent.complete (Completion.write 104)]).session.outbound_queue_ ≠ [] := by
  decide

/-- C9 as amended: when `handle_write` is called with an error, it leaves the
session as it is, the outbound queue with its waiting entries included, calls
the disconnection handler of the server with that error and does nothing else:
no write is started. -/
theorem write_error_leaves_queue_and_disconnects (s : Session) (error : error_code)
    (entry : QueueEntry) (h : error ≠ 0) :
    (Session.handle_write s error entry : Session × List (Effect M))
      = (s, [Effect.disconnected error]) := by
  simp [Session.handle_write, h]

/-- The error branch of `handle_write` on a session with one waiting entry and
error 104. -/
theorem write_error_leaves_queue_and_disconnects_witness :
    (104 : error_code) ≠ 0
      ∧ (Session.handle_write
            { Session.init 1 with
              outbound_active_ := true
              outbound_queue_ := [QueueEntry.serialized bytes_register 5 10 [2]] }
            104 (QueueEntry.serialized bytes_register 5 10 [1]) :
          Session × List (Effect (List Nat)))
        = ({ Session.init 1 with
              outbound_active_ := true
              outbound_queue_ := [QueueEntry.serialized bytes_register 5 10 [2]] },
           [Effect.disconnected 104]) :=
  ⟨by decide, write_error_leaves_queue_and_disconnects _ 104 _ (by decide)⟩

/-! ## Read side -/

/-- C7: the capacity `in_data_size_` starts at 1024 and does not decrease over
any sequence of events of a session; and when `handle_read_header` runs without
error for a header whose decoded payload size exceeds the capacity and
`realloc` succeeds, the capacity becomes that payload size and the read that is
started asks for that many bytes, which is within the capacity. -/
theorem read_buffer_grows_to_fit (reg : MessageRegister M) (id : ClientID) (c : Conn)
    (evs : List (SessionEvent M)) (s : Session)
    (h : s.in_data_size_ < ntohl s.in_frame_header_.payload_size) :
    (Session.init id).in_data_size_ = 1024
      ∧ c.session.in_data_size_ ≤ (Conn.run reg c evs).session.in_data_size_
      ∧ (Session.handle_read_header s 0 true : Session × List (Effect M))
          = ({ s with in_data_size_ := ntohl s.in_frame_header_.payload_size },
             [Effect.async_read_message (ntohl s.in_frame_header_.payload_size)
                (ntohl s.in_frame_header_.payload_size)]) := by
  refine ⟨rfl, Conn.run_capacity reg evs c, ?_⟩
  simp [Session.handle_read_header, h]

/-- The growth of the read buffer for a header that announces 4096 bytes, and the
capacity over a header, payload, header sequence. -/
theorem read_buffer_grows_to_fit_witness :
    (Session.init 1).in_data_size_ < ntohl (2 ^ 32 + 4096)
      ∧ (Session.init 1).in_data_size_ = 1024
      ∧ (Conn.init (Session.init 1)).session.in_data_size_
          ≤ (Conn.run bytes_register
              { Conn.init (Session.init 1) with reads := [ReadOp.header] }
              [SessionEvent.complete (Completion.read_header 0 ⟨5, 10, 2048⟩ true),
               SessionEvent.complete (Completion.read_message 0 [1, 2, 3]),
               SessionEvent.complete (Completion.read_header 0 ⟨5, 10, 16⟩ true)]
            ).session.in_data_size_
      ∧ (Session.handle_read_header
            { Session.init 1 with in_frame_header_ := ⟨5, 10, 2 ^ 32 + 4096⟩ } 0 true :
          Session × List (Effect (List Nat)))
          = ({ Session.init 1 with
                in_frame_header_ := ⟨5, 10, 2 ^ 32 + 4096⟩, in_data_size_ := 4096 },
             [Effect.async_read_message 4096 4096]) :=
  ⟨by decide,
   read_buffer_grows_to_fit bytes_register 1
     { Conn.init (Session.init 1) with reads := [ReadOp.header] } _
     { Session.init 1 with in_frame_header_ := ⟨5, 10, 2 ^ 32 + 4096⟩ } (by decide)⟩

/-- C8, the code at the failing input: capacity 1024, a header announcing 2048
bytes, `realloc` fails.  The handler calls the disconnection handler with
`not_enough_memory` and then still starts the read of 2048 bytes into the
buffer of 1024 bytes. -/
theorem read_header_realloc_failure_still_reads :
    (Session.handle_read_header
        { Session.init 1 with in_frame_header_ := ⟨5, 10, 2048⟩ } 0 false :
      Session × List (Effect (List Nat)))
      = ({ Session.init 1 with in_frame_header_ := ⟨5, 10, 2048⟩ },
         [Effect.disconnected not_enough_memory, Effect.async_read_message 1024 2048]) := by
  decide

theorem map_find_erase_self (m : List (ClientID × Nat)) (k : ClientID) :
    map_find (map_erase m k) k = none := by
  induction m with
  | nil => rfl
  | cons p m ih =>
    obtain ⟨pk, pv⟩ := p
    unfold map_erase at ih ⊢
    by_cases h : pk = k
    · rw [List.filter_cons_of_neg (by simp [h])]
      exact ih
    · rw [List.filter_cons_of_pos (by simp [h])]
      have hk : (k == pk) = false := by simpa using fun e => h e.symm
      unfold map_find at ih ⊢
      simp only [List.lookup, hk]
      exact ih

theorem map_find_eq_none (m : List (ClientID × Nat)) (k : ClientID)
    (h : k ∉ map_keys m) : map_find m k = none := by
  induction m with
  | nil => rfl
  | cons p m ih =>
    obtain ⟨pk, pv⟩ := p
    simp only [map_keys, List.map_cons, List.mem_cons, not_or] at h
    have hk : (k == pk) = false := by simpa using h.1
    simpa [map_find, List.lookup, hk] using ih h.2

theorem map_erase_of_not_mem (m : List (ClientID × Nat)) (k : ClientID)
    (h : map_find m k = none) : map_erase m k = m := by
  induction m with
  | nil => rfl
  | cons p m ih =>
    obtain ⟨pk, pv⟩ := p
    by_cases hk : k = pk
    · simp [map_find, List.lookup, hk] at h
    · have hb : (k == pk) = false := by simpa using hk
      have h2 : map_find m k = none := by
        unfold map_find at h ⊢
        simpa only [List.lookup, hb] using h
      have hne : pk ≠ k := fun e => hk e.symm
      unfold map_erase at ih ⊢
      rw [List.filter_cons_of_pos (by simp [hne]), ih h2]

theorem connected_ids_append (l1 l2 : List (Signal M)) :
    connected_ids (l1 ++ l2) = connected_ids l1 ++ connected_ids l2 := by
  induction l1 with
  | nil => rfl
  | cons x l1 ih => cases x <;> simp [connected_ids, ih]

/-- The calls of `Session::send` into the server: none, so the server keeps
its table, its accepts and its signals. -/
theorem ProtobufStreamServer.parent_calls_no_disconnect (srv : ProtobufStreamServer M)
    (session : Session) (effs : List (Effect M))
    (h : ∀ e ∈ effs, ∃ entry, e = Effect.async_write entry) :
    srv.parent_calls session effs = srv := by
  induction effs generalizing srv with
  | nil => rfl
  | cons e effs ih =>
    obtain ⟨entry, he⟩ := h e (by simp)
    subst he
    simp only [ProtobufStreamServer.parent_calls]
    exact ih srv (fun e2 h2 => h e2 (by simp [h2]))

theorem Session.send_effects (reg : MessageRegister M) (s : Session)
    (component_id msg_type : Nat) (m : M) :
    ∀ e ∈ (s.send reg component_id msg_type m).2, ∃ entry, e = Effect.async_write entry := by
  intro e he
  simp only [Session.send] at he
  by_cases ha : s.outbound_active_ = true
  · simp [ha] at he
  · simp [ha] at he
    exact ⟨_, he⟩

theorem ProtobufStreamServer.send_sessions (reg : MessageRegister M)
    (srv : ProtobufStreamServer M) (client : ClientID) (component_id msg_type : Nat) (m : M) :
    (srv.send reg client component_id msg_type m).2.sessions_ = srv.sessions_
      ∧ (srv.send reg client component_id msg_type m).2.signals = srv.signals
      ∧ (srv.send reg client component_id msg_type m).2.accepts = srv.accepts
      ∧ (srv.send reg client component_id msg_type m).2.next_cid_ = srv.next_cid_
      ∧ (srv.send reg client component_id msg_type m).2.objects.length = srv.objects.length := by
  simp only [ProtobufStreamServer.send]
  cases hf : map_find srv.sessions_ client with
  | none => simp
  | some a =>
    simp only [ProtobufStreamServer.on_session]
    cases ho : srv.objects[a]? with
    | none => simp
    | some c =>
      simp only [Conn.send, Conn.run_handler]
      rw [ProtobufStreamServer.parent_calls_no_disconnect _ _ _
        (Session.send_effects reg c.session component_id msg_type m)]
      simp

/-- C2: `send` to a client id that is not a key of `sessions_` fails with the
client-not-found exception and changes nothing, neither the table nor any
session object; and `send` to any id, a present one included, leaves the keys
of the table as they are. -/
theorem send_unknown_client_fails (reg : MessageRegister M) (srv : ProtobufStreamServer M)
    (client present : ClientID) (component_id msg_type : Nat) (m : M)
    (h : client ∉ map_keys srv.sessions_) :
    srv.send reg client component_id msg_type m = (Except.error client_not_found, srv)
      ∧ map_keys (srv.send reg present component_id msg_type m).2.sessions_
          = map_keys srv.sessions_ := by
  refine ⟨?_, ?_⟩
  · simp [ProtobufStreamServer.send, map_find_eq_none _ _ h]
  · rw [(ProtobufStreamServer.send_sessions reg srv present component_id msg_type m).1]

/-- A server with the single client 1: `send` to id 9 fails and changes nothing,
`send` to id 1 keeps the keys. -/
theorem send_unknown_client_fails_witness :
    9 ∉ map_keys one_client_server.sessions_
      ∧ one_client_server.send bytes_register 9 5 10 [88]
          = (Except.error client_not_found, one_client_server)
      ∧ map_keys (one_client_server.send bytes_register 1 5 10 [88]).2.sessions_
          = map_keys one_client_server.sessions_ :=
  ⟨by decide, send_unknown_client_fails bytes_register one_client_server 9 1 5 10 [88]
    (by decide)⟩

/-! ## Disconnection notifications -/

/-- C3, the claim as stated fails: a client connects and gets id 1, the
application sends to it, the header read completes with error 104 and then the
outstanding write completes with error 32.  The application gets two
`sig_disconnected_` notifications for id 1. -/
theorem second_failure_report_notifies_again_counterexample :
    disconnect_notifications 1
        (ProtobufStreamServer.run 32 bytes_register (ProtobufStreamServer.init 32)
          [Event.accept_complete 0 (some 7),
           Event.send 1 5 10 [88],
           Event.complete 0 (Completion.read_header 104 ⟨0, 0, 0⟩ true),
           Event.complete 0 (Completion.write 32)]).signals
      = [104, 32] := by
  decide

/-- C3 as amended: every completion of an outstanding read or write of a
session that reports an error makes the server emit one `sig_disconnected_`
notification for the id of that session with that error, whether or not the
session is still in the table; afterwards the id is not a key of the table, and
when it was not a key before, the table stays as it is. -/
theorem every_failure_report_notifies_once (w : Nat) (reg : MessageRegister M)
    (srv : ProtobufStreamServer M) (a : Nat) (c : Conn) (k : Completion)
    (hc : srv.objects[a]? = some c) (ho : c.outstanding k = true) (he : k.error ≠ 0) :
    (srv.step w reg (Event.complete a k)).signals
        = srv.signals ++ [Signal.sig_disconnected c.session.id_ k.error]
      ∧ map_find (srv.step w reg (Event.complete a k)).sessions_ c.session.id_ = none
      ∧ (map_find srv.sessions_ c.session.id_ = none →
          (srv.step w reg (Event.complete a k)).sessions_ = srv.sessions_) := by
  simp only [ProtobufStreamServer.step, ProtobufStreamServer.on_session, hc]
  cases k with
  | write error =>
    simp only [Completion.error] at he
    cases hw : c.writes with
    | nil => simp [Conn.outstanding, hw] at ho
    | cons entry rest =>
      simp [Conn.complete, hw, Conn.run_handler, Session.handle_write, he,
        ProtobufStreamServer.parent_calls, ProtobufStreamServer.disconnected, Conn.start,
        Completion.error, map_find_erase_self]
      exact map_erase_of_not_mem _ _
  | read_header error header realloc_ok =>
    simp only [Completion.error] at he
    cases hr : c.reads with
    | nil => simp [Conn.outstanding, hr] at ho
    | cons op rest =>
      cases op with
      | header =>
        simp [Conn.complete, hr, Conn.run_handler, Session.handle_read_header, he,
          ProtobufStreamServer.parent_calls, ProtobufStreamServer.disconnected, Conn.start,
          Completion.error, map_find_erase_self]
        exact map_erase_of_not_mem _ _
      | message capacity to_read => simp [Conn.outstanding, hr] at ho
  | read_message error data =>
    simp only [Completion.error] at he
    cases hr : c.reads with
    | nil => simp [Conn.outstanding, hr] at ho
    | cons op rest =>
      cases op with
      | header => simp [Conn.outstanding, hr] at ho
      | message capacity to_read =>
        simp [Conn.complete, hr, Conn.run_handler, Session.handle_read_message, he,
          ProtobufStreamServer.parent_calls, ProtobufStreamServer.disconnected, Conn.start,
          Completion.error, map_find_erase_self]
        exact map_erase_of_not_mem _ _

/-- A server with the single client 1 whose header read completes with error
104. -/
theorem every_failure_report_notifies_once_witness :
    one_client_server.objects[0]? = some first_client
      ∧ first_client.outstanding (Completion.read_header 104 ⟨0, 0, 0⟩ true) = true
      ∧ (Completion.read_header 104 ⟨0, 0, 0⟩ true).error ≠ 0
      ∧ (one_client_server.step 32 bytes_register
            (Event.complete 0 (Completion.read_header 104 ⟨0, 0, 0⟩ true))).signals
          = one_client_server.signals ++ [Signal.sig_disconnected 1 104]
      ∧ map_find (one_client_server.step 32 bytes_register
            (Event.complete 0 (Completion.read_header 104 ⟨0, 0, 0⟩ true))).sessions_ 1
          = none
      ∧ (map_find one_client_server.sessions_ 1 = none →
          (one_client_server.step 32 bytes_register
            (Event.complete 0 (Completion.read_header 104 ⟨0, 0, 0⟩ true))).sessions_
          = one_client_server.sessions_) :=
  ⟨by decide, by decide, by decide,
   every_failure_report_notifies_once 32 bytes_register one_client_server 0 first_client
     (Completion.read_header 104 ⟨0, 0, 0⟩ true) (by decide) (by decide) (by decide)⟩

/-! ## ClientIDs -/

theorem ProtobufStreamServer.parent_calls_frame (session : Session) (effs : List (Effect M)) :
    ∀ srv : ProtobufStreamServer M,
      (srv.parent_calls session effs).accepts = srv.accepts
        ∧ (srv.parent_calls session effs).next_cid_ = srv.next_cid_
        ∧ connected_ids (srv.parent_calls session effs).signals = connected_ids srv.signals := by
  induction effs with
  | nil => intro srv; exact ⟨rfl, rfl, rfl⟩
  | cons e effs ih =>
    intro srv
    cases e with
    | async_read_header => simpa [ProtobufStreamServer.parent_calls] using ih srv
    | async_read_message capacity to_read =>
      simpa [ProtobufStreamServer.parent_calls] using ih srv
    | async_write entry => simpa [ProtobufStreamServer.parent_calls] using ih srv
    | disconnected error =>
      simp only [ProtobufStreamServer.parent_calls]
      obtain ⟨h1, h2, h3⟩ := ih (srv.disconnected session error)
      refine ⟨h1, h2, ?_⟩
      rw [h3]
      simp [ProtobufStreamServer.disconnected, connected_ids_append, connected_ids]
    | sig_rcvd id comp_id msg_type m =>
      simp only [ProtobufStreamServer.parent_calls]
      obtain ⟨h1, h2, h3⟩ := ih
        { srv with signals := srv.signals ++ [Signal.sig_rcvd id comp_id msg_type m] }
      refine ⟨h1, h2, ?_⟩
      rw [h3]
      simp [connected_ids_append, connected_ids]
    | exception => exact ⟨rfl, rfl, rfl⟩

theorem ProtobufStreamServer.on_session_frame (srv : ProtobufStreamServer M) (a : Nat)
    (f : Conn → Conn × List (Effect M)) :
    (srv.on_session a f).accepts = srv.accepts
      ∧ (srv.on_session a f).next_cid_ = srv.next_cid_
      ∧ connected_ids (srv.on_session a f).signals = connected_ids srv.signals := by
  simp only [ProtobufStreamServer.on_session]
  cases srv.objects[a]? with
  | none => exact ⟨rfl, rfl, rfl⟩
  | some c =>
    exact ProtobufStreamServer.parent_calls_frame _ _
      { srv with objects := srv.objects.set a (f c).1 }

theorem ProtobufStreamServer.init_accept_inv (w : Nat) :
    (ProtobufStreamServer.init w : ProtobufStreamServer M).accept_inv w 0 := by
  simp [ProtobufStreamServer.init, ProtobufStreamServer.start_accept,
    ProtobufStreamServer.accept_inv]

/-- A successful accept completion whose `start_session` returns. -/
theorem ProtobufStreamServer.step_accept_ok (w : Nat) (reg : MessageRegister M)
    (srv : ProtobufStreamServer M) (k : Nat) (ep : Nat) (h : srv.accept_inv w k) :
    (srv.step w reg (Event.accept_complete 0 (some ep))).accept_inv w (k + 1)
      ∧ (srv.step w reg (Event.accept_complete 0 (some ep))).signals
          = srv.signals ++ [Signal.sig_connected ((1 + k) % 2 ^ w) ep]
      ∧ map_find (srv.step w reg (Event.accept_complete 0 (some ep))).sessions_
          ((1 + k) % 2 ^ w) = some srv.objects.length
      ∧ (srv.step w reg (Event.accept_complete 0 (some ep))).objects
          = srv.objects ++
              [{ session := { Session.init ((1 + k) % 2 ^ w) with remote_endpoint_ := ep }
                 reads := [ReadOp.header]
                 writes := []
                 initiated := []
                 terminated := false }]
      ∧ (srv.step w reg (Event.accept_complete 0 (some ep))).terminated = srv.terminated := by
  obtain ⟨h1, h2⟩ := h
  have hm : (2 + k) % 2 ^ w = (1 + (k + 1)) % 2 ^ w := by
    congr 1
    omega
  simp [ProtobufStreamServer.step, h1, ProtobufStreamServer.handle_accept,
    ProtobufStreamServer.start_accept, ProtobufStreamServer.accept_inv, h2,
    Session.start_session, Session.start_read, Session.init, map_find, map_assign, hm,
    Conn.init, Conn.run_handler, Conn.start]
  congr 1
  omega

/-- An accept completion that reports an error. -/
theorem ProtobufStreamServer.step_accept_error (w : Nat) (reg : MessageRegister M)
    (srv : ProtobufStreamServer M) (k : Nat) (error : error_code) (endpoint : Option Nat)
    (he : error ≠ 0) (h : srv.accept_inv w k) :
    (srv.step w reg (Event.accept_complete error endpoint)).accept_inv w (k + 1)
      ∧ (srv.step w reg (Event.accept_complete error endpoint)).signals = srv.signals := by
  obtain ⟨h1, h2⟩ := h
  have hm : (2 + k) % 2 ^ w = (1 + (k + 1)) % 2 ^ w := by
    congr 1
    omega
  simp [ProtobufStreamServer.step, h1, ProtobufStreamServer.handle_accept, he,
    ProtobufStreamServer.start_accept, ProtobufStreamServer.accept_inv, h2, hm]
  congr 1
  omega

/-- A successful accept completion whose `start_session` throws. -/
theorem ProtobufStreamServer.step_accept_throw (w : Nat) (reg : MessageRegister M)
    (srv : ProtobufStreamServer M) (k : Nat) (h : srv.accept_inv w k) :
    (srv.step w reg (Event.accept_complete 0 none)).terminated = true
      ∧ (srv.step w reg (Event.accept_complete 0 none)).signals = srv.signals := by
  obtain ⟨h1, h2⟩ := h
  simp [ProtobufStreamServer.step, h1, ProtobufStreamServer.handle_accept,
    Session.start_session]

theorem ProtobufStreamServer.step_other (w : Nat) (reg : MessageRegister M)
    (srv : ProtobufStreamServer M) (k : Nat) (e : Event M)
    (he : ∀ error endpoint, e ≠ Event.accept_complete error endpoint)
    (h : srv.accept_inv w k) :
    (srv.step w reg e).accept_inv w k
      ∧ connected_ids (srv.step w reg e).signals = connected_ids srv.signals := by
  cases e with
  | accept_complete error endpoint => exact absurd rfl (he error endpoint)
  | complete a c =>
    obtain ⟨h1, h2, h3⟩ := srv.on_session_frame a (fun x => x.complete reg c)
    exact ⟨⟨by simpa [ProtobufStreamServer.step, h1] using h.1,
      by simpa [ProtobufStreamServer.step, h2] using h.2⟩, h3⟩
  | send client component_id msg_type m =>
    obtain ⟨_, h2, h3, h4, _⟩ := srv.send_sessions reg client component_id msg_type m
    exact ⟨⟨by simpa [ProtobufStreamServer.step, h3] using h.1,
      by simpa [ProtobufStreamServer.step, h4] using h.2⟩,
      by simp [ProtobufStreamServer.step, h2]⟩

theorem ProtobufStreamServer.run_terminated (w : Nat) (reg : MessageRegister M)
    (srv : ProtobufStreamServer M) (evs : List (Event M)) (h : srv.terminated = true) :
    srv.run w reg evs = srv := by
  cases evs with
  | nil => rfl
  | cons e evs => simp [ProtobufStreamServer.run, h]

theorem ProtobufStreamServer.run_cons (w : Nat) (reg : MessageRegister M)
    (srv : ProtobufStreamServer M) (e : Event M) (evs : List (Event M))
    (h : srv.terminated = false) :
    srv.run w reg (e :: evs) = (srv.step w reg e).run w reg evs := by
  simp [ProtobufStreamServer.run, h]

theorem ProtobufStreamServer.run_snoc (w : Nat) (reg : MessageRegister M)
    (evs : List (Event M)) (e : Event M) :
    ∀ srv : ProtobufStreamServer M, (srv.run w reg evs).terminated = false →
      srv.run w reg (evs ++ [e]) = (srv.run w reg evs).step w reg e := by
  induction evs with
  | nil =>
    intro srv h
    have h0 : srv.terminated = false := h
    simp [ProtobufStreamServer.run, h0]
  | cons e0 evs ih =>
    intro srv h
    cases ht : srv.terminated with
    | true =>
      rw [ProtobufStreamServer.run_terminated w reg srv _ ht, ht] at h
      cases h
    | false =>
      rw [ProtobufStreamServer.run_cons w reg srv e0 evs ht] at h ⊢
      rw [List.cons_append, ProtobufStreamServer.run_cons w reg srv e0 _ ht]
      exact ih _ h

theorem ProtobufStreamServer.step_accept_inv (w : Nat) (reg : MessageRegister M)
    (srv : ProtobufStreamServer M) (k : Nat) (e : Event M) (h : srv.accept_inv w k) :
    (srv.step w reg e).terminated = true
      ∨ (srv.step w reg e).accept_inv w (k + accept_count [e]) := by
  cases e with
  | accept_complete error endpoint =>
    by_cases he : error = 0
    · subst he
      cases endpoint with
      | none => exact Or.inl (srv.step_accept_throw w reg k h).1
      | some ep => exact Or.inr (srv.step_accept_ok w reg k ep h).1
    · exact Or.inr (srv.step_accept_error w reg k error endpoint he h).1
  | complete a c =>
    exact Or.inr (srv.step_other w reg k _ (by intro _ _ hc; cases hc) h).1
  | send client component_id msg_type m =>
    exact Or.inr (srv.step_other w reg k _ (by intro _ _ hc; cases hc) h).1

theorem accept_count_cons (e : Event M) (evs : List (Event M)) :
    accept_count (e :: evs) = accept_count [e] + accept_count evs := by
  cases e with
  | accept_complete error endpoint =>
    simp only [accept_count]
    omega
  | complete a c => simp [accept_count]
  | send client component_id msg_type m => simp [accept_count]

theorem ProtobufStreamServer.run_accept_inv (w : Nat) (reg : MessageRegister M)
    (evs : List (Event M)) :
    ∀ (srv : ProtobufStreamServer M) (k : Nat), srv.accept_inv w k →
      (srv.run w reg evs).terminated = false →
      (srv.run w reg evs).accept_inv w (k + accept_count evs) := by
  induction evs with
  | nil => intro srv k h _; simpa [ProtobufStreamServer.run, accept_count] using h
  | cons e evs ih =>
    intro srv k h hrun
    cases ht : srv.terminated with
    | true =>
      rw [ProtobufStreamServer.run_terminated w reg srv _ ht, ht] at hrun
      cases hrun
    | false =>
      rw [ProtobufStreamServer.run_cons w reg srv e evs ht] at hrun ⊢
      rcases srv.step_accept_inv w reg k e h with hterm | hinv
      · rw [ProtobufStreamServer.run_terminated w reg _ _ hterm, hterm] at hrun
        cases hrun
      · rw [accept_count_cons, ← Nat.add_assoc]
        exact ih _ _ hinv hrun

theorem ProtobufStreamServer.step_ids_inv (w : Nat) (reg : MessageRegister M)
    (srv : ProtobufStreamServer M) (k : Nat) (e : Event M) (h : srv.ids_inv w k)
    (ht : srv.terminated = false) (hk : k + accept_count [e] < 2 ^ w) :
    (srv.step w reg e).ids_inv w (k + accept_count [e]) := by
  obtain ⟨hp, hb, hi⟩ := h
  have hinv : srv.accept_inv w k := by
    rcases hi with hi | hi
    · rw [ht] at hi
      cases hi
    · exact hi
  cases e with
  | accept_complete error endpoint =>
    simp only [accept_count] at hk ⊢
    by_cases he : error = 0
    · subst he
      cases endpoint with
      | none =>
        obtain ⟨h1, h2⟩ := srv.step_accept_throw w reg k hinv
        refine ⟨by rw [h2]; exact hp, ?_, Or.inl h1⟩
        rw [h2]
        intro i hi2
        exact Nat.le_trans (hb i hi2) (by omega)
      | some ep =>
        obtain ⟨h1, h2, _⟩ := srv.step_accept_ok w reg k ep hinv
        have hmod : (1 + k) % 2 ^ w = 1 + k := Nat.mod_eq_of_lt (by omega)
        have hids : connected_ids
            (srv.step w reg (Event.accept_complete 0 (some ep))).signals
            = connected_ids srv.signals ++ [1 + k] := by
          rw [h2, connected_ids_append, hmod]
          rfl
        refine ⟨?_, ?_, Or.inr h1⟩
        · rw [hids, List.pairwise_append]
          refine ⟨hp, List.pairwise_singleton _ _, ?_⟩
          intro a ha b hb2
          have hbk : b = 1 + k := by simpa using hb2
          have hak : a ≤ k := hb a ha
          rw [hbk]
          exact Nat.lt_of_le_of_lt hak (Nat.lt_add_of_pos_left Nat.one_pos)
        · rw [hids]
          intro i hi2
          rcases List.mem_append.mp hi2 with hi3 | hi3
          · exact Nat.le_trans (hb i hi3) (by omega)
          · have hik : i = 1 + k := by simpa using hi3
            rw [hik]
            exact Nat.le_of_eq (Nat.add_comm 1 k)
    · obtain ⟨h1, h2⟩ := srv.step_accept_error w reg k error endpoint he hinv
      refine ⟨by rw [h2]; exact hp, ?_, Or.inr h1⟩
      rw [h2]
      intro i hi2
      exact Nat.le_trans (hb i hi2) (by omega)
  | complete a c =>
    obtain ⟨h1, h2⟩ := srv.step_other w reg k (Event.complete a c)
      (by intro _ _ hc; cases hc) hinv
    exact ⟨by rw [h2]; exact hp, by rw [h2]; exact hb, Or.inr h1⟩
  | send client component_id msg_type m =>
    obtain ⟨h1, h2⟩ := srv.step_other w reg k (Event.send client component_id msg_type m)
      (by intro _ _ hc; cases hc) hinv
    exact ⟨by rw [h2]; exact hp, by rw [h2]; exact hb, Or.inr h1⟩

theorem ProtobufStreamServer.run_ids_inv (w : Nat) (reg : MessageRegister M)
    (evs : List (Event M)) :
    ∀ (srv : ProtobufStreamServer M) (k : Nat), srv.ids_inv w k →
      k + accept_count evs < 2 ^ w →
      (connected_ids (srv.run w reg evs).signals).Pairwise (· < ·) := by
  induction evs with
  | nil => intro srv k h _; exact h.1
  | cons e evs ih =>
    intro srv k h hk
    cases ht : srv.terminated with
    | true =>
      rw [ProtobufStreamServer.run_terminated w reg srv _ ht]
      exact h.1
    | false =>
      rw [ProtobufStreamServer.run_cons w reg srv e evs ht]
      rw [accept_count_cons, ← Nat.add_assoc] at hk
      exact ih _ _ (srv.step_ids_inv w reg k e h ht (by omega)) hk

/-- C1: for every sequence of accept completions (successful or failed),
completions on sessions (the failed ones disconnect) and sends on a freshly
constructed server, with fewer accept completions than the `w`-bit ClientID
type has values, the ids that `handle_accept` registered and announced are
strictly increasing in acceptance order, so no id is given twice. -/
theorem client_ids_strictly_increasing (w : Nat) (reg : MessageRegister M)
    (evs : List (Event M)) (h : accept_count evs < 2 ^ w) :
    (connected_ids ((ProtobufStreamServer.init w).run w reg evs).signals).Pairwise (· < ·)
      ∧ (connected_ids ((ProtobufStreamServer.init w).run w reg evs).signals).Nodup := by
  have hp := ProtobufStreamServer.run_ids_inv w reg evs (ProtobufStreamServer.init w) 0
    ⟨List.Pairwise.nil, (fun i hi => by cases hi),
      Or.inr (ProtobufStreamServer.init_accept_inv w)⟩ (by omega)
  exact ⟨hp, hp.imp (fun hlt => Nat.ne_of_lt hlt)⟩

/-- Three accept completions, one of them failed, with a disconnection and a
send in between, on a server of 32-bit ids. -/
theorem client_ids_strictly_increasing_witness :
    accept_count
        [Event.accept_complete 0 (some 7), Event.accept_complete 5 none,
         Event.complete 0 (Completion.read_header 104 ⟨0, 0, 0⟩ true),
         Event.accept_complete 0 (some 8), Event.send 3 5 10 [88]] < 2 ^ 32
      ∧ (connected_ids ((ProtobufStreamServer.init 32).run 32 bytes_register
          [Event.accept_complete 0 (some 7), Event.accept_complete 5 none,
           Event.complete 0 (Completion.read_header 104 ⟨0, 0, 0⟩ true),
           Event.accept_complete 0 (some 8), Event.send 3 5 10 [88]]).signals).Pairwise (· < ·)
      ∧ (connected_ids ((ProtobufStreamServer.init 32).run 32 bytes_register
          [Event.accept_complete 0 (some 7), Event.accept_complete 5 none,
           Event.complete 0 (Completion.read_header 104 ⟨0, 0, 0⟩ true),
           Event.accept_complete 0 (some 8), Event.send 3 5 10 [88]]).signals).Nodup :=
  ⟨by decide, client_ids_strictly_increasing 32 bytes_register _ (by decide)⟩

/-- C6, the claim as stated fails: when the first accept completion reports an
error, the first connection that is accepted gets id 2; and when an accept
completion fails between two successful ones, the second connection gets id 3
after id 1. -/
theorem failed_accept_consumes_id_counterexample :
    connected_ids ((ProtobufStreamServer.init 32).run 32 bytes_register
        [Event.accept_complete 5 none, Event.accept_complete 0 (some 7)]).signals = [2]
      ∧ connected_ids ((ProtobufStreamServer.init 32).run 32 bytes_register
        [Event.accept_complete 0 (some 7), Event.accept_complete 5 none,
         Event.accept_complete 0 (some 8)]).signals = [1, 3] := by
  decide

/-- C6 as amended: on a freshly constructed server the session of each accept
operation takes its id from the counter when the accept is started.  So after
any events that left the server running, an accept completion without error
whose `start_session` returns announces the connection with the id 1 plus the
number of accept completions, successful or failed, before it (in the `w`-bit
ClientID type), registers it in the table under that id and stores the session
object, with that id, the endpoint and the header read outstanding, at the
address the table holds; when no accept completion fails, client A gets 1 and
client B gets 2. -/
theorem accepted_id_counts_accept_completions (w : Nat) (reg : MessageRegister M)
    (pre : List (Event M)) (endpoint : Nat)
    (hrun : ((ProtobufStreamServer.init w).run w reg pre).terminated = false) :
    (((ProtobufStreamServer.init w).run w reg
          (pre ++ [Event.accept_complete 0 (some endpoint)])).signals
        = ((ProtobufStreamServer.init w).run w reg pre).signals
            ++ [Signal.sig_connected ((1 + accept_count pre) % 2 ^ w) endpoint])
      ∧ (map_find ((ProtobufStreamServer.init w).run w reg
            (pre ++ [Event.accept_complete 0 (some endpoint)])).sessions_
          ((1 + accept_count pre) % 2 ^ w)
        = some ((ProtobufStreamServer.init w).run w reg pre).objects.length)
      ∧ (((ProtobufStreamServer.init w).run w reg
            (pre ++ [Event.accept_complete 0 (some endpoint)])).objects
        = ((ProtobufStreamServer.init w).run w reg pre).objects ++
            [{ session :=
                 { Session.init ((1 + accept_count pre) % 2 ^ w) with
                   remote_endpoint_ := endpoint }
               reads := [ReadOp.header]
               writes := []
               initiated := []
               terminated := false }])
      ∧ (connected_ids ((ProtobufStreamServer.init 32).run 32 bytes_register
          [Event.accept_complete 0 (some 7), Event.accept_complete 0 (some 8)]).signals
        = [1, 2]) := by
  have hinv := ProtobufStreamServer.run_accept_inv w reg pre (ProtobufStreamServer.init w) 0
    (ProtobufStreamServer.init_accept_inv w) hrun
  rw [Nat.zero_add] at hinv
  obtain ⟨_, h2, h3, h4, _⟩ := ProtobufStreamServer.step_accept_ok w reg _ _ endpoint hinv
  rw [ProtobufStreamServer.run_snoc w reg pre _ _ hrun]
  exact ⟨h2, h3, h4, by decide⟩

/-- A failed accept completion and a send to an unknown id come first; the
connection accepted after them from endpoint 7 gets id 2. -/
theorem accepted_id_counts_accept_completions_witness :
    ((ProtobufStreamServer.init 32).run 32 bytes_register
        [Event.accept_complete 5 none, Event.send 9 5 10 [88]]).terminated = false
      ∧ ((ProtobufStreamServer.init 32).run 32 bytes_register
          ([Event.accept_complete 5 none, Event.send 9 5 10 [88]]
            ++ [Event.accept_complete 0 (some 7)])).signals
        = ((ProtobufStreamServer.init 32).run 32 bytes_register
            [Event.accept_complete 5 none, Event.send 9 5 10 [88]]).signals
            ++ [Signal.sig_connected 2 7]
      ∧ map_find ((ProtobufStreamServer.init 32).run 32 bytes_register
          ([Event.accept_complete 5 none, Event.send 9 5 10 [88]]
            ++ [Event.accept_complete 0 (some 7)])).sessions_ 2
        = some 0
      ∧ ((ProtobufStreamServer.init 32).run 32 bytes_register
          ([Event.accept_complete 5 none, Event.send 9 5 10 [88]]
            ++ [Event.accept_complete 0 (some 7)])).objects
        = [{ session := { Session.init 2 with remote_endpoint_ := 7 }
             reads := [ReadOp.header]
             writes := []
             initiated := []
             terminated := false }]
      ∧ (connected_ids ((ProtobufStreamServer.init 32).run 32 bytes_register
          [Event.accept_complete 0 (some 7), Event.accept_complete 0 (some 8)]).signals
        = [1, 2]) :=
  ⟨by decide,
   accepted_id_counts_accept_completions 32 bytes_register
     [Event.accept_complete 5 none, Event.send 9 5 10 [88]] 7 (by decide)⟩

end protobuf_comm
